import Mathlib

/-!
Shallow embedding of the PowerGamer backend core (src/app/main.py):
the scrape-parse-collect pipeline and the snapshot/gains
persistence-and-diff engine.  Calendar dates and timestamps are
modelled as integers (day numbers / clock ticks); the SQLite tables
`player_snapshots` and `daily_gains` are modelled as lists of rows, and
`INSERT OR REPLACE` under the `UNIQUE(name, date)` constraint is
modelled as delete-matching-then-append.
-/

namespace TibiaTracker

/-- The Pydantic `Player` model: one parsed leaderboard entry. -/
structure Player where
  rank : Int
  name : String
  level : Int
  experience : Int
  vocation : String
deriving Repr, DecidableEq

/-- One row of the `player_snapshots` table (without the autoincrement id).
`date` is the calendar date as a day number; `timestamp` is the capture time. -/
structure SnapshotRow where
  name : String
  level : Int
  experience : Int
  vocation : String
  rank_position : Int
  date : Int
  timestamp : Int
deriving Repr, DecidableEq

/-- The `player_snapshots` table. -/
abbrev SnapshotTable := List SnapshotRow

/-- One row of the `daily_gains` table (without the autoincrement id). -/
structure GainsRow where
  name : String
  date : Int
  exp_gained : Int
  level_gained : Int
  starting_level : Int
  ending_level : Int
  starting_exp : Int
  ending_exp : Int
deriving Repr, DecidableEq

/-- The `daily_gains` table. -/
abbrev GainsTable := List GainsRow

/-- Whether a snapshot row has the given `(name, date)` key. -/
def snapKeyIs (n : String) (d : Int) (s : SnapshotRow) : Bool :=
  s.name == n && s.date == d

/-- `INSERT OR REPLACE INTO player_snapshots`: the `UNIQUE(name, date)`
constraint deletes any conflicting row, then the new row is inserted. -/
def upsertSnapshot (r : SnapshotRow) (t : SnapshotTable) : SnapshotTable :=
  t.filter (fun s => ! snapKeyIs r.name r.date s) ++ [r]

/-- Lookup of the snapshot row with the given key (unique when the table
satisfies the `UNIQUE(name, date)` constraint). -/
def findSnapshot (t : SnapshotTable) (n : String) (d : Int) : Option SnapshotRow :=
  t.find? (snapKeyIs n d)

/-- The snapshot row written for one player by `save_daily_snapshot`:
name, level, experience, vocation, rank from the entry; `date` is today;
the captured timestamp defaults to the current time. -/
def snapRowOf (today now : Int) (p : Player) : SnapshotRow :=
  ⟨p.name, p.level, p.experience, p.vocation, p.rank, today, now⟩

/-- Outcome of `save_daily_snapshot`: the new table state, the internal
`saved_count` counter (incremented once per successful row write and then
logged), and the Python function's returned value — the function has no
`return <value>` statement, so it always returns `None`. -/
structure SaveResult where
  table : SnapshotTable
  savedCount : Nat
  returned : Option Nat
deriving Repr, DecidableEq

/-- `TibiaTracker.save_daily_snapshot`: if the entry list is falsy (empty)
it returns immediately; otherwise it upserts one snapshot row per entry,
counting the rows written, and commits once at the end. -/
def save_daily_snapshot (today now : Int) (players : List Player)
    (t : SnapshotTable) : SaveResult :=
  if players.isEmpty then ⟨t, 0, none⟩
  else
    let r := players.foldl
      (fun acc p => (upsertSnapshot (snapRowOf today now p) acc.1, acc.2 + 1)) (t, 0)
    ⟨r.1, r.2, none⟩

/-- The `UNIQUE(name, date)` constraint of `player_snapshots`, declared in
`init_database`: no two rows share a `(name, date)` key. -/
abbrev uniqueKeys (t : SnapshotTable) : Prop :=
  (t.map (fun s => (s.name, s.date))).Nodup

/-- A sequence of `save_daily_snapshot` calls, each giving a date, a
capture time and an entry list, applied in order. -/
def saveAll (calls : List (Int × Int × List Player)) (t : SnapshotTable) : SnapshotTable :=
  calls.foldl (fun tbl c => (save_daily_snapshot c.1 c.2.1 c.2.2 tbl).table) t

/-- Whether a gains row has the given `(name, date)` key. -/
def gainsKeyIs (n : String) (d : Int) (g : GainsRow) : Bool :=
  g.name == n && g.date == d

/-- `INSERT OR REPLACE INTO daily_gains` under `UNIQUE(name, date)`. -/
def upsertGains (r : GainsRow) (t : GainsTable) : GainsTable :=
  t.filter (fun g => ! gainsKeyIs r.name r.date g) ++ [r]

/-- Lookup of the gains row with the given key. -/
def findGains (t : GainsTable) (n : String) (d : Int) : Option GainsRow :=
  t.find? (gainsKeyIs n d)

/-- Python's `x or default` applied to a nullable integer column: `None`
is falsy, and so is `0`, so both are replaced by the default. -/
def pyOr (x : Option Int) (default : Int) : Int :=
  match x with
  | none => default
  | some v => if v = 0 then default else v

/-- The `SELECT ... WHERE t.date = today` driving rows of the gains query. -/
def todaysRows (snap : SnapshotTable) (today : Int) : List SnapshotRow :=
  snap.filter (fun s => s.date == today)

/-- The gains row written for one of today's snapshot rows: the LEFT JOIN
supplies yesterday's row when one exists (NULL columns otherwise), the
yesterday values are coalesced with Python `or`, and the deltas are clamped
at zero. -/
def gainsRowFor (today : Int) (snap : SnapshotTable) (t : SnapshotRow) : GainsRow :=
  let y := findSnapshot snap t.name (today - 1)
  let yesterday_level := pyOr (y.map SnapshotRow.level) t.level
  let yesterday_exp := pyOr (y.map SnapshotRow.experience) t.experience
  { name := t.name
    date := today
    exp_gained := max 0 (t.experience - yesterday_exp)
    level_gained := max 0 (t.level - yesterday_level)
    starting_level := yesterday_level
    ending_level := t.level
    starting_exp := yesterday_exp
    ending_exp := t.experience }

/-- Outcome of `calculate_daily_gains`: the new `daily_gains` table, the
internal `gains_calculated` counter (logged), and the Python function's
returned value — again there is no `return` statement, so always `None`. -/
structure GainsResult where
  table : GainsTable
  gainsCalculated : Nat
  returned : Option Nat
deriving Repr, DecidableEq

/-- `TibiaTracker.calculate_daily_gains`: for every snapshot row dated
`today`, left-joined against the row of the same name dated `today - 1`,
upsert a gains row and count it. -/
def calculate_daily_gains (today : Int) (snap : SnapshotTable)
    (g : GainsTable) : GainsResult :=
  let r := (todaysRows snap today).foldl
    (fun acc t => (upsertGains (gainsRowFor today snap t) acc.1, acc.2 + 1)) (g, 0)
  ⟨r.1, r.2, none⟩

/-! ### Parser (`TibiaTracker.scrape_page`, rows of the `Table3` table) -/

/-- One `<td>` cell: its stripped text, and the stripped text of an
embedded `<a>` element when the cell contains one. -/
structure Cell where
  linkText : Option String
  text : String
deriving Repr, DecidableEq

/-- A table row: its list of `<td>` cells. -/
abbrev Row := List Cell

/-- The default cell (never read on rows that pass the length guard). -/
def defaultCell : Cell := ⟨none, ""⟩

/-- Python `str.isdigit()`: non-empty and all digits. -/
def pyIsDigit (s : String) : Bool :=
  !s.isEmpty && s.toList.all Char.isDigit

/-- Value of a digit string (used only after a digits-only check). -/
def digitsToNat (s : String) : Nat :=
  s.toList.foldl (fun acc c => acc * 10 + (c.toNat - 48)) 0

/-- `int(s) if s.isdigit() else 0`. -/
def parseIntOrZero (s : String) : Int :=
  if pyIsDigit s then (digitsToNat s : Int) else 0

/-- `s.replace('.', '')`. -/
def removeDots (s : String) : String :=
  String.mk (s.toList.filter (fun c => c != '.'))

/-- `re.sub(r'[^\d]', '', s)`. -/
def keepDigits (s : String) : String :=
  String.mk (s.toList.filter Char.isDigit)

/-- `int(re.sub(r'[^\d]', '', exp_text)) if exp_text else 0`: an empty
cell yields 0; a non-empty cell stripped of non-digits yields its digit
value, except that a non-empty cell with no digits makes `int('')` raise
`ValueError` (modelled as `none`), which skips the row. -/
def parseExperience (s : String) : Option Int :=
  if s.isEmpty then some 0
  else
    let ds := keepDigits s
    if ds.isEmpty then none else some (digitsToNat ds : Int)

/-- Rank of a row: cell 0's text with dots removed, parsed with the
isdigit-guarded default of 0. -/
def rowRank (cells : Row) : Int :=
  parseIntOrZero (removeDots (cells.getD 0 defaultCell).text)

/-- Name of a row: the embedded link's text in cell 2 when present, the
raw cell text otherwise. -/
def rowName (cells : Row) : String :=
  let c := cells.getD 2 defaultCell
  c.linkText.getD c.text

/-- Vocation of a row: cell 3's text. -/
def rowVocation (cells : Row) : String :=
  (cells.getD 3 defaultCell).text

/-- Level of a row: cell 4's text, isdigit-guarded with default 0. -/
def rowLevel (cells : Row) : Int :=
  parseIntOrZero (cells.getD 4 defaultCell).text

/-- Experience of a row: cell 5's text through `parseExperience`. -/
def rowExp (cells : Row) : Option Int :=
  parseExperience (cells.getD 5 defaultCell).text

/-- The per-row body of the parsing loop: rows with fewer than six cells
fall through the `len(cells) >= 6` test; a `ValueError` from the
experience conversion skips the row; the validation `name and rank > 0
and level > 0` gates acceptance. -/
def parseRow (cells : Row) : Option Player :=
  if 6 ≤ cells.length then
    match rowExp cells with
    | none => none
    | some experience =>
      if rowName cells ≠ "" ∧ rowRank cells > 0 ∧ rowLevel cells > 0 then
        some ⟨rowRank cells, rowName cells, rowLevel cells, experience,
              rowVocation cells⟩
      else none
  else none

/-- The parsing loop over the table's rows: each row is tried in order,
accepted rows are appended, every other row is skipped and the loop
continues with the next row. -/
def parseRows (rows : List Row) : List Player :=
  rows.filterMap parseRow

/-- Parsing of one `Table3` table: the first row is the header and is
skipped, the rest go through the row loop. -/
def parseTable (rows : List Row) : List Player :=
  parseRows (rows.drop 1)

/-! ### Fetcher and Collector -/

/-- What fetching one page can produce: a network failure, a document
without the `Table3` ranking table, or the table's rows. -/
abbrev FetchWorld := Nat → Except Unit (Option (List Row))

/-- `TibiaTracker.scrape_page`: a request failure returns `[]`, a missing
ranking table returns `[]`, otherwise the table is parsed. -/
def scrape_page (w : FetchWorld) (page : Nat) : List Player :=
  match w page with
  | Except.error _ => []
  | Except.ok none => []
  | Except.ok (some rows) => parseTable rows

/-- `TibiaTracker.scrape_all_pages_async`: pages 1..total_pages are
scraped sequentially and their entries concatenated in page order. -/
def scrape_all_pages_async (w : FetchWorld) (total_pages : Nat) : List Player :=
  (List.range' 1 total_pages).foldl (fun acc page => acc ++ scrape_page w page) []

/-! ### Query layer: top gainers -/

/-- One output row of `GET /stats/top-gainers` (the floating-point
`avg_daily_exp` column, `AVG(exp_gained)` rounded, is not modelled). -/
structure GainerStats where
  name : String
  total_exp_gained : Int
  total_levels_gained : Int
  days_tracked : Nat
deriving Repr, DecidableEq

/-- `GROUP BY name` aggregates for one name over the date-filtered rows. -/
def statsFor (rows : GainsTable) (n : String) : GainerStats :=
  let mine := rows.filter (fun r => r.name == n)
  ⟨n, (mine.map GainsRow.exp_gained).sum,
      (mine.map GainsRow.level_gained).sum, mine.length⟩

/-- Insertion step of the model of `ORDER BY total_exp_gained DESC`:
an element is placed before the first strictly smaller total, so equal
totals keep their relative order (SQL guarantees nothing about tie
order; a stable sort is one of its allowed behaviours). -/
def insertDesc (s : GainerStats) : List GainerStats → List GainerStats
  | [] => [s]
  | t :: rest =>
    if t.total_exp_gained < s.total_exp_gained then s :: t :: rest
    else t :: insertDesc s rest

/-- The model of `ORDER BY total_exp_gained DESC` on the grouped rows. -/
def sortDesc (l : List GainerStats) : List GainerStats :=
  l.foldr insertDesc []

/-- `get_top_gainers` (endpoint `/stats/top-gainers`): rows of
`daily_gains` with `date >= date('now', '-days days')` are grouped by
name, summed, ordered by total experience gained descending, and capped
by `LIMIT 50`. -/
def get_top_gainers (g : GainsTable) (today : Int) (days : Int) : List GainerStats :=
  let rows := g.filter (fun r => today - days ≤ r.date)
  let names := (rows.map GainsRow.name).dedup
  (sortDesc (names.map (statsFor rows))).take 50

/-- Modelled from the spec's words, for comparison with `get_top_gainers`
(which is translated from the code): the per-player sum of `exp_gained`
over exactly the trailing window of `days` calendar days inclusive of
today, i.e. over the dates `today - days + 1 .. today`. -/
def specWindowSum (g : GainsTable) (today days : Int) (n : String) : Int :=
  ((g.filter (fun r => r.name == n && today - days < r.date && r.date ≤ today)).map
    GainsRow.exp_gained).sum

/-! ### Triggers and the pipeline run -/

/-- `manual_scrape` (`POST /scrape/manual`): `BackgroundTasks.add_task`
unconditionally appends one more `daily_scraping_job` run to the queue —
no lock or run-state is consulted — and the handler reports "started".
The state is the number of runs already queued or active. -/
def manual_scrape (queuedRuns : Nat) : Nat × String :=
  (queuedRuns + 1, "Manual scraping started in background")

/-- The persisted state touched by one pipeline run. -/
structure AppState where
  snapshots : SnapshotTable
  gains : GainsTable
deriving Repr, DecidableEq

/-- `daily_scraping_job`: scrape all pages; if any entries were collected,
save the snapshot and then compute the gains; with an empty collection
both persistence stages are skipped. -/
def daily_scraping_job (w : FetchWorld) (total_pages : Nat) (today now : Int)
    (st : AppState) : AppState :=
  let players := scrape_all_pages_async w total_pages
  if players.isEmpty then st
  else
    let snap' := (save_daily_snapshot today now players st.snapshots).table
    { snapshots := snap'
      gains := (calculate_daily_gains today snap' st.gains).table }

/-- The table component of the gains loop as a plain fold (the loop of
`calculate_daily_gains` with the row counter projected away). -/
def gainsWrite (today : Int) (snap : SnapshotTable) (ts : List SnapshotRow)
    (g : GainsTable) : GainsTable :=
  ts.foldl (fun tbl t => upsertGains (gainsRowFor today snap t) tbl) g

/-- The table component of the snapshot-save loop as a plain fold (the
loop of `save_daily_snapshot` with the row counter projected away). -/
def snapWrite (today now : Int) (players : List Player) (t : SnapshotTable) : SnapshotTable :=
  players.foldl (fun tbl p => upsertSnapshot (snapRowOf today now p) tbl) t

/-- Whether a pre-existing row's key collides with none of the entries
being saved for `today`. -/
def notSavedKey (today : Int) (players : List Player) (s : SnapshotRow) : Bool :=
  players.all (fun p => !(s.name == p.name && s.date == today))

/-! ### Concrete fixtures used by closed instances of the claims -/

/-- Snapshots of player `P` on days 9 and 10: the spec's diff-correctness
example (level 100 → 102, experience 1,000,000 → 1,250,000). -/
def snapDiffEx : SnapshotTable :=
  [⟨"P", 100, 1000000, "Knight", 1, 9, 0⟩, ⟨"P", 102, 1250000, "Knight", 1, 10, 1⟩]

/-- Snapshots of player `P` on days 9 and 10 where day 9 recorded
experience 0 (an empty experience cell parses to 0). -/
def snapZeroExpEx : SnapshotTable :=
  [⟨"P", 50, 0, "Knight", 1, 9, 0⟩, ⟨"P", 50, 100, "Knight", 1, 10, 1⟩]

/-- Snapshots of player `P` on days 9 and 10: the spec's regression/reset
example (level 50 → 48, experience 500,000 → 480,000). -/
def snapRegressionEx : SnapshotTable :=
  [⟨"P", 50, 500000, "Knight", 1, 9, 0⟩, ⟨"P", 48, 480000, "Knight", 1, 10, 1⟩]

/-- Snapshots of player `P` on day 6 (earlier history) and day 10, with
no row on day 9. -/
def snapGapEx : SnapshotTable :=
  [⟨"P", 90, 900000, "Knight", 2, 6, 0⟩, ⟨"P", 95, 950000, "Knight", 1, 10, 1⟩]

/-- A well-formed six-column row: rank "1", outfit, name link "A",
vocation "Knight", level "10", experience "2.000". -/
def rowGoodEx : Row :=
  [⟨none, "1"⟩, ⟨none, ""⟩, ⟨some "A", "A"⟩, ⟨none, "Knight"⟩, ⟨none, "10"⟩,
   ⟨none, "2.000"⟩]

/-- The spec's thousands-separator example: a well-formed row whose
experience text is "1.234.567". -/
def rowMillionEx : Row :=
  [⟨none, "1"⟩, ⟨none, ""⟩, ⟨some "A", "A"⟩, ⟨none, "Knight"⟩, ⟨none, "10"⟩,
   ⟨none, "1.234.567"⟩]

/-- A malformed row with fewer than six columns. -/
def rowShortEx : Row := [⟨none, "2"⟩, ⟨none, "B"⟩]

/-- A six-column row with non-empty name, rank 1 and level 10, whose
experience text "abc" is non-empty but contains no digit. -/
def rowNoDigitExpEx : Row :=
  [⟨none, "1"⟩, ⟨none, ""⟩, ⟨some "A", "A"⟩, ⟨none, "Knight"⟩, ⟨none, "10"⟩,
   ⟨none, "abc"⟩]

/-- A header row (always skipped by the parser). -/
def headerRowEx : Row := [⟨none, "#"⟩]

/-- A fetch world where page 3 fails with a network error and every other
page returns a table with a header and one good row. -/
def worldPage3FailsEx : FetchWorld := fun p =>
  if p = 3 then Except.error () else Except.ok (some [headerRowEx, rowGoodEx])

/-- A fetch world where every page fails with a network error. -/
def deadWorldEx : FetchWorld := fun _ => Except.error ()

/-! ### Helper lemmas -/

@[simp]
theorem snapKeyIs_iff (n : String) (d : Int) (s : SnapshotRow) :
    snapKeyIs n d s = true ↔ s.name = n ∧ s.date = d := by
  simp [snapKeyIs]

@[simp]
theorem gainsKeyIs_iff (n : String) (d : Int) (g : GainsRow) :
    gainsKeyIs n d g = true ↔ g.name = n ∧ g.date = d := by
  simp [gainsKeyIs]

theorem foldl_pair_fst {α β : Type} (g : β → α → β) (l : List α) (t : β) (n : Nat) :
    (l.foldl (fun acc p => (g acc.1 p, acc.2 + 1)) (t, n)).1 = l.foldl g t := by
  induction l generalizing t n with
  | nil => rfl
  | cons a l ih => simpa using ih (g t a) (n + 1)

theorem foldl_pair_snd {α β : Type} (g : β → α → β) (l : List α) (t : β) (n : Nat) :
    (l.foldl (fun acc p => (g acc.1 p, acc.2 + 1)) (t, n)).2 = n + l.length := by
  induction l generalizing t n with
  | nil => simp
  | cons a l ih => simpa [ih (g t a) (n + 1)] using by omega

/-- Filtering out elements that cannot match leaves `find?` unchanged. -/
theorem find?_filter_of_imp {α : Type} (p q : α → Bool) (l : List α)
    (h : ∀ a, p a = true → q a = true) :
    (l.filter q).find? p = l.find? p := by
  induction l with
  | nil => rfl
  | cons a l ih =>
    by_cases hq : q a = true
    · rw [List.filter_cons_of_pos hq]
      by_cases hp : p a = true
      · rw [List.find?_cons_of_pos _ hp, List.find?_cons_of_pos _ hp]
      · rw [List.find?_cons_of_neg _ hp, List.find?_cons_of_neg _ hp, ih]
    · have hp : ¬ p a = true := fun h1 => hq (h a h1)
      rw [List.filter_cons_of_neg (by simpa using hq),
        List.find?_cons_of_neg _ hp, ih]

theorem findGains_upsert_self (r : GainsRow) (t : GainsTable) :
    findGains (upsertGains r t) r.name r.date = some r := by
  unfold findGains upsertGains
  rw [List.find?_append]
  have h1 : (t.filter fun g => ! gainsKeyIs r.name r.date g).find?
      (gainsKeyIs r.name r.date) = none := by
    rw [List.find?_eq_none]
    intro x hx
    have hk := List.of_mem_filter hx
    simp only [Bool.not_eq_true'] at hk
    simp [hk]
  have h2 : gainsKeyIs r.name r.date r = true := by simp
  rw [h1, List.find?_cons_of_pos _ h2]
  rfl

theorem findGains_upsert_other (r : GainsRow) (t : GainsTable) (n : String) (d : Int)
    (h : ¬(n = r.name ∧ d = r.date)) :
    findGains (upsertGains r t) n d = findGains t n d := by
  unfold findGains upsertGains
  rw [List.find?_append]
  have h2 : ¬ gainsKeyIs n d r = true := by
    rw [gainsKeyIs_iff]
    intro h1
    exact h ⟨h1.1.symm, h1.2.symm⟩
  have h3 : ([r].find? (gainsKeyIs n d)) = none := by
    rw [List.find?_cons_of_neg _ h2]
    rfl
  have h4 : (t.filter fun g => ! gainsKeyIs r.name r.date g).find? (gainsKeyIs n d)
      = t.find? (gainsKeyIs n d) := by
    apply find?_filter_of_imp
    intro a ha
    rw [gainsKeyIs_iff] at ha
    simp only [Bool.not_eq_true']
    by_contra h1
    rw [Bool.not_eq_false, gainsKeyIs_iff] at h1
    exact h ⟨ha.1.symm.trans h1.1, ha.2.symm.trans h1.2⟩
  rw [h3, h4]
  simp

theorem calculate_daily_gains_table (today : Int) (snap : SnapshotTable) (g : GainsTable) :
    (calculate_daily_gains today snap g).table
      = gainsWrite today snap (todaysRows snap today) g := by
  have h := foldl_pair_fst (fun tbl t => upsertGains (gainsRowFor today snap t) tbl)
    (todaysRows snap today) g 0
  exact h

theorem calculate_daily_gains_count (today : Int) (snap : SnapshotTable) (g : GainsTable) :
    (calculate_daily_gains today snap g).gainsCalculated
      = (todaysRows snap today).length := by
  unfold calculate_daily_gains
  simpa using foldl_pair_snd
    (fun tbl t => upsertGains (gainsRowFor today snap t) tbl) (todaysRows snap today) g 0

theorem findGains_gainsWrite_untouched (today : Int) (snap : SnapshotTable)
    (ts : List SnapshotRow) (g : GainsTable) (n : String) (d : Int)
    (h : ∀ u ∈ ts, ¬(n = u.name ∧ d = today)) :
    findGains (gainsWrite today snap ts g) n d = findGains g n d := by
  induction ts generalizing g with
  | nil => rfl
  | cons u ts ih =>
    unfold gainsWrite
    rw [List.foldl_cons]
    have step := findGains_upsert_other (gainsRowFor today snap u) g n d
      (by simpa [gainsRowFor] using h u (by simp))
    calc findGains (gainsWrite today snap ts (upsertGains (gainsRowFor today snap u) g)) n d
        = findGains (upsertGains (gainsRowFor today snap u) g) n d :=
          ih _ (fun v hv => h v (by simp [hv]))
      _ = findGains g n d := step

/-- After the gains loop, the row looked up for a driving snapshot row
with a name unique among the driving rows is exactly the row computed
for it. -/
theorem findGains_gainsWrite (today : Int) (snap : SnapshotTable)
    (ts : List SnapshotRow) (g : GainsTable) (t : SnapshotRow)
    (hmem : t ∈ ts) (hnd : (ts.map SnapshotRow.name).Nodup) :
    findGains (gainsWrite today snap ts g) t.name today
      = some (gainsRowFor today snap t) := by
  induction ts generalizing g with
  | nil => cases hmem
  | cons u ts ih =>
    rw [List.map_cons, List.nodup_cons] at hnd
    unfold gainsWrite
    rw [List.foldl_cons]
    rcases List.mem_cons.mp hmem with rfl | hmem2
    · rw [show (List.foldl (fun tbl t => upsertGains (gainsRowFor today snap t) tbl)
          (upsertGains (gainsRowFor today snap t) g) ts)
          = gainsWrite today snap ts (upsertGains (gainsRowFor today snap t) g) from rfl]
      rw [findGains_gainsWrite_untouched]
      · have := findGains_upsert_self (gainsRowFor today snap t) g
        simpa [gainsRowFor] using this
      · intro v hv hc
        exact hnd.1 (by rw [hc.1]; exact List.mem_map_of_mem SnapshotRow.name hv)
    · exact ih _ hmem2 hnd.2

theorem save_daily_snapshot_table (today now : Int) (players : List Player)
    (t : SnapshotTable) :
    (save_daily_snapshot today now players t).table = snapWrite today now players t := by
  unfold save_daily_snapshot
  by_cases h : players.isEmpty
  · rw [if_pos h, List.isEmpty_iff.mp h]
    rfl
  · rw [if_neg h]
    have h2 := foldl_pair_fst (fun tbl p => upsertSnapshot (snapRowOf today now p) tbl)
      players t 0
    exact h2

/-- Normal form of the save loop: the pre-existing rows whose keys are
not being written survive in order, followed by the rows the loop wrote
(which depend only on the entries, the date and the time). -/
theorem snapWrite_normal_form (today now : Int) (players : List Player)
    (t : SnapshotTable) :
    snapWrite today now players t
      = t.filter (notSavedKey today players) ++ snapWrite today now players [] := by
  induction players generalizing t with
  | nil =>
    have h : List.filter (notSavedKey today []) t = t :=
      List.filter_eq_self.mpr (fun s _ => rfl)
    simp [snapWrite, h]
  | cons p ps ih =>
    show snapWrite today now ps (upsertSnapshot (snapRowOf today now p) t) = _
    rw [ih (upsertSnapshot (snapRowOf today now p) t)]
    have hrhs : snapWrite today now (p :: ps) ([] : SnapshotTable)
        = List.filter (notSavedKey today ps) [snapRowOf today now p]
          ++ snapWrite today now ps [] := by
      show snapWrite today now ps (upsertSnapshot (snapRowOf today now p) []) = _
      rw [ih (upsertSnapshot (snapRowOf today now p) [])]
      rfl
    rw [hrhs]
    unfold upsertSnapshot
    rw [List.filter_append, List.filter_filter]
    have hpt : ∀ s : SnapshotRow,
        (notSavedKey today ps s && ! snapKeyIs (snapRowOf today now p).name
          (snapRowOf today now p).date s)
        = notSavedKey today (p :: ps) s := by
      intro s
      simp only [notSavedKey, snapKeyIs, snapRowOf, List.all_cons]
      exact Bool.and_comm _ _
    rw [List.filter_congr (fun s _ => hpt s)]
    rw [List.append_assoc]

/-- Every row produced by the save loop from an empty table is the row of
one of the saved entries. -/
theorem mem_snapWrite (today now : Int) (players : List Player) (t : SnapshotTable)
    (s : SnapshotRow) (hs : s ∈ snapWrite today now players t) :
    s ∈ t ∨ ∃ p ∈ players, s = snapRowOf today now p := by
  induction players generalizing t with
  | nil => exact Or.inl hs
  | cons p ps ih =>
    rcases ih (upsertSnapshot (snapRowOf today now p) t) hs with h1 | ⟨q, hq, rfl⟩
    · unfold upsertSnapshot at h1
      rcases List.mem_append.mp h1 with h2 | h2
      · exact Or.inl (List.mem_of_mem_filter h2)
      · rcases List.mem_singleton.mp h2 with rfl
        exact Or.inr ⟨p, by simp, rfl⟩
    · exact Or.inr ⟨q, by simp [hq], rfl⟩

theorem snapWrite_filter_self (today now : Int) (players : List Player) :
    (snapWrite today now players []).filter (notSavedKey today players) = [] := by
  rw [List.filter_eq_nil_iff]
  intro s hs
  rcases mem_snapWrite today now players [] s hs with h1 | ⟨p, hp, rfl⟩
  · cases h1
  · intro hfalse
    unfold notSavedKey at hfalse
    rw [List.all_eq_true] at hfalse
    have h2 := hfalse p hp
    simp [snapRowOf] at h2

/-- Re-running the save loop with the same entries (at any capture time)
rewrites exactly the rows the first run wrote: the second run's result is
what a single run would have produced. -/
theorem snapWrite_idempotent (today now now' : Int) (players : List Player)
    (t : SnapshotTable) :
    snapWrite today now' players (snapWrite today now players t)
      = snapWrite today now' players t := by
  rw [snapWrite_normal_form today now' players (snapWrite today now players t),
    snapWrite_normal_form today now players t,
    List.filter_append, List.filter_filter,
    List.filter_congr (fun (s : SnapshotRow) _ => Bool.and_self (notSavedKey today players s)),
    snapWrite_filter_self,
    snapWrite_normal_form today now' players t]
  simp

theorem uniqueKeys_upsert (r : SnapshotRow) (t : SnapshotTable) (h : uniqueKeys t) :
    uniqueKeys (upsertSnapshot r t) := by
  unfold upsertSnapshot
  rw [show uniqueKeys (t.filter (fun s => ! snapKeyIs r.name r.date s) ++ [r])
    = ((t.filter (fun s => ! snapKeyIs r.name r.date s)).map (fun s => (s.name, s.date))
        ++ [(r.name, r.date)]).Nodup from by simp [uniqueKeys]]
  rw [List.nodup_append]
  refine ⟨h.sublist ((List.filter_sublist t).map _), by simp, ?_⟩
  intro k hk hk2
  rcases List.mem_singleton.mp hk2 with rfl
  rcases List.mem_map.mp hk with ⟨s, hs, hks⟩
  have h2 := List.of_mem_filter hs
  simp only [Bool.not_eq_true'] at h2
  rw [snapKeyIs] at h2
  have h3 : s.name = r.name ∧ s.date = r.date := by
    have := congrArg Prod.fst hks
    have := congrArg Prod.snd hks
    simp_all
  simp [h3.1, h3.2] at h2

theorem uniqueKeys_snapWrite (today now : Int) (players : List Player)
    (t : SnapshotTable) (h : uniqueKeys t) :
    uniqueKeys (snapWrite today now players t) := by
  induction players generalizing t with
  | nil => exact h
  | cons p ps ih => exact ih _ (uniqueKeys_upsert _ _ h)

theorem uniqueKeys_saveAll (calls : List (Int × Int × List Player))
    (t : SnapshotTable) (h : uniqueKeys t) :
    uniqueKeys (saveAll calls t) := by
  induction calls generalizing t with
  | nil => exact h
  | cons c cs ih =>
    show uniqueKeys (saveAll cs (save_daily_snapshot c.1 c.2.1 c.2.2 t).table)
    rw [save_daily_snapshot_table]
    exact ih _ (uniqueKeys_snapWrite _ _ _ _ h)

theorem mem_insertDesc (x s : GainerStats) (l : List GainerStats) :
    x ∈ insertDesc s l ↔ x = s ∨ x ∈ l := by
  induction l with
  | nil => simp [insertDesc]
  | cons t rest ih =>
    unfold insertDesc
    by_cases h : t.total_exp_gained < s.total_exp_gained
    · rw [if_pos h]
      simp [List.mem_cons]
    · rw [if_neg h]
      simp only [List.mem_cons, ih]
      tauto

theorem pairwise_insertDesc (s : GainerStats) (l : List GainerStats)
    (h : l.Pairwise (fun a b => b.total_exp_gained ≤ a.total_exp_gained)) :
    (insertDesc s l).Pairwise (fun a b => b.total_exp_gained ≤ a.total_exp_gained) := by
  induction l with
  | nil => simp [insertDesc]
  | cons t rest ih =>
    rw [List.pairwise_cons] at h
    unfold insertDesc
    by_cases hc : t.total_exp_gained < s.total_exp_gained
    · rw [if_pos hc, List.pairwise_cons]
      refine ⟨?_, List.pairwise_cons.mpr h⟩
      intro b hb
      rcases List.mem_cons.mp hb with rfl | hb2
      · exact le_of_lt hc
      · exact le_trans (h.1 b hb2) (le_of_lt hc)
    · rw [if_neg hc, List.pairwise_cons]
      refine ⟨?_, ih h.2⟩
      intro b hb
      rcases (mem_insertDesc b s rest).mp hb with rfl | hb2
      · exact le_of_not_lt hc
      · exact h.1 b hb2

theorem pairwise_sortDesc (l : List GainerStats) :
    (sortDesc l).Pairwise (fun a b => b.total_exp_gained ≤ a.total_exp_gained) := by
  induction l with
  | nil => simp [sortDesc]
  | cons s rest ih => exact pairwise_insertDesc s _ ih

theorem mem_sortDesc (x : GainerStats) (l : List GainerStats) :
    x ∈ sortDesc l ↔ x ∈ l := by
  induction l with
  | nil => simp [sortDesc]
  | cons s rest ih =>
    show x ∈ insertDesc s (sortDesc rest) ↔ _
    rw [mem_insertDesc, ih, List.mem_cons]

theorem foldl_append_eq_join {α β : Type} (f : α → List β) (l : List α) (acc : List β) :
    l.foldl (fun a p => a ++ f p) acc = acc ++ (l.map f).flatten := by
  induction l generalizing acc with
  | nil => simp
  | cons p ps ih => simp [ih, List.append_assoc]

theorem scrape_all_pages_error (w : FetchWorld) (total : Nat)
    (hw : ∀ p, w p = Except.error ()) :
    scrape_all_pages_async w total = [] := by
  unfold scrape_all_pages_async
  rw [foldl_append_eq_join]
  have h : ∀ p, scrape_page w p = [] := by
    intro p
    unfold scrape_page
    rw [hw p]
  have h2 : (List.range' 1 total).map (scrape_page w)
      = (List.range' 1 total).map (fun _ => ([] : List Player)) :=
    List.map_congr_left (fun p _ => h p)
  rw [h2]
  simp

/-! ### Claims -/

/-- C1, counterexample: with Snapshot(P, D-1) = (level 50, exp 0) and
Snapshot(P, D) = (level 50, exp 100), the gains record written by
`calculate_daily_gains` has starting_exp = 100 (today's value), not 0
(the D-1 row's experience): Python's `or` coalesces the falsy value 0
away, so the claim's "starting values equal the D-1 row's" is false. -/
theorem calculate_daily_gains_zero_baseline_cex :
    (findSnapshot snapZeroExpEx "P" 9).map SnapshotRow.experience = some 0 ∧
    (findGains (calculate_daily_gains 10 snapZeroExpEx []).table "P" 10).map
      GainsRow.starting_exp = some 100 ∧
    (100 : Int) ≠ 0 := by
  decide

/-- C1 (amended): for a player with snapshot rows on both D-1 and D whose
D-1 level and experience are both nonzero, `calculate_daily_gains` writes
a gains record whose starting values are the D-1 row's level/experience
and whose ending values are the D row's, with the clamped deltas. -/
theorem calculate_daily_gains_prior_day_values (snap : SnapshotTable) (g : GainsTable)
    (today : Int) (t y : SnapshotRow)
    (hnd : ((todaysRows snap today).map SnapshotRow.name).Nodup)
    (ht : t ∈ todaysRows snap today)
    (hy : findSnapshot snap t.name (today - 1) = some y)
    (hyl : y.level ≠ 0) (hye : y.experience ≠ 0) :
    findGains (calculate_daily_gains today snap g).table t.name today
      = some { name := t.name, date := today,
               exp_gained := max 0 (t.experience - y.experience),
               level_gained := max 0 (t.level - y.level),
               starting_level := y.level, ending_level := t.level,
               starting_exp := y.experience, ending_exp := t.experience } := by
  rw [calculate_daily_gains_table, findGains_gainsWrite today snap _ g t ht hnd]
  unfold gainsRowFor
  rw [hy]
  simp [pyOr, hyl, hye]

/-- C1 witness: the spec's diff example, Snapshot(P, 9) = (100, 1000000)
and Snapshot(P, 10) = (102, 1250000), yields exp_gained = 250000 and
level_gained = 2. -/
theorem calculate_daily_gains_prior_day_values_witness :
    findGains (calculate_daily_gains 10 snapDiffEx []).table "P" 10
      = some ⟨"P", 10, 250000, 2, 100, 102, 1000000, 1250000⟩ := by
  have h := calculate_daily_gains_prior_day_values snapDiffEx [] 10
    ⟨"P", 102, 1250000, "Knight", 1, 10, 1⟩ ⟨"P", 100, 1000000, "Knight", 1, 9, 0⟩
    (by decide) (by decide) (by decide) (by decide) (by decide)
  exact h.trans (by decide)

/-- C2: for a player with snapshot rows on both D-1 and D, the gains
record written by `calculate_daily_gains` satisfies
exp_gained = max 0 (ending_exp - starting_exp) and
level_gained = max 0 (ending_level - starting_level), and both gained
fields are nonnegative. -/
theorem calculate_daily_gains_clamped_nonneg (snap : SnapshotTable) (g : GainsTable)
    (today : Int) (t y : SnapshotRow)
    (hnd : ((todaysRows snap today).map SnapshotRow.name).Nodup)
    (ht : t ∈ todaysRows snap today)
    (hy : findSnapshot snap t.name (today - 1) = some y) :
    ∃ r, findGains (calculate_daily_gains today snap g).table t.name today = some r ∧
      r.exp_gained = max 0 (r.ending_exp - r.starting_exp) ∧
      r.level_gained = max 0 (r.ending_level - r.starting_level) ∧
      0 ≤ r.exp_gained ∧ 0 ≤ r.level_gained := by
  refine ⟨gainsRowFor today snap t, ?_, rfl, rfl, le_max_left _ _, le_max_left _ _⟩
  rw [calculate_daily_gains_table]
  exact findGains_gainsWrite today snap _ g t ht hnd

/-- C2 witness: the spec's regression example, Snapshot(P, 9) =
(50, 500000) and Snapshot(P, 10) = (48, 480000), yields exp_gained = 0
and level_gained = 0, never negative values. -/
theorem calculate_daily_gains_clamped_nonneg_witness :
    (∃ r, findGains (calculate_daily_gains 10 snapRegressionEx []).table "P" 10 = some r ∧
      r.exp_gained = max 0 (r.ending_exp - r.starting_exp) ∧
      r.level_gained = max 0 (r.ending_level - r.starting_level) ∧
      0 ≤ r.exp_gained ∧ 0 ≤ r.level_gained) ∧
    (findGains (calculate_daily_gains 10 snapRegressionEx []).table "P" 10).map
      GainsRow.exp_gained = some 0 ∧
    (findGains (calculate_daily_gains 10 snapRegressionEx []).table "P" 10).map
      GainsRow.level_gained = some 0 := by
  refine ⟨calculate_daily_gains_clamped_nonneg snapRegressionEx [] 10
    ⟨"P", 48, 480000, "Knight", 1, 10, 1⟩ ⟨"P", 50, 500000, "Knight", 1, 9, 0⟩
    (by decide) (by decide) (by decide), by decide, by decide⟩

/-- C3: for a player with a snapshot row on D but none on D-1,
`calculate_daily_gains` writes a gains record whose starting values equal
its ending values (today's), with exp_gained = 0 and level_gained = 0,
whatever rows exist on earlier dates. -/
theorem calculate_daily_gains_missing_prior_baseline (snap : SnapshotTable)
    (g : GainsTable) (today : Int) (t : SnapshotRow)
    (hnd : ((todaysRows snap today).map SnapshotRow.name).Nodup)
    (ht : t ∈ todaysRows snap today)
    (hy : findSnapshot snap t.name (today - 1) = none) :
    findGains (calculate_daily_gains today snap g).table t.name today
      = some ⟨t.name, today, 0, 0, t.level, t.level, t.experience, t.experience⟩ := by
  rw [calculate_daily_gains_table, findGains_gainsWrite today snap _ g t ht hnd]
  unfold gainsRowFor
  rw [hy]
  simp [pyOr]

/-- C3 witness: player P has snapshots on day 6 and day 10 but none on
day 9; computing gains for day 10 yields zero gains with starting values
equal to day 10's values, despite the day 6 history. -/
theorem calculate_daily_gains_missing_prior_baseline_witness :
    findGains (calculate_daily_gains 10 snapGapEx []).table "P" 10
      = some ⟨"P", 10, 0, 0, 95, 95, 950000, 950000⟩ := by
  have h := calculate_daily_gains_missing_prior_baseline snapGapEx [] 10
    ⟨"P", 95, 950000, "Knight", 1, 10, 1⟩ (by decide) (by decide) (by decide)
  exact h.trans (by decide)

/-- C4: the `(name, date)` uniqueness invariant holds after any sequence
of `save_daily_snapshot` calls starting from a table satisfying it, and
saving the same date and entries a second time (at any capture time)
produces exactly the table a single save would have produced: no
duplicate rows, the same persisted rows, a second scrape on the same
date overwriting fields in place. -/
theorem save_daily_snapshot_unique_idempotent (t : SnapshotTable)
    (calls : List (Int × Int × List Player)) (today now now' : Int)
    (players : List Player) (h : uniqueKeys t) :
    uniqueKeys (saveAll calls t) ∧
    (save_daily_snapshot today now' players
        (save_daily_snapshot today now players t).table).table
      = (save_daily_snapshot today now' players t).table := by
  refine ⟨uniqueKeys_saveAll calls t h, ?_⟩
  rw [save_daily_snapshot_table, save_daily_snapshot_table, save_daily_snapshot_table]
  exact snapWrite_idempotent today now now' players t

/-- C4 witness: starting from an empty table, a two-entry save sequence
keeps keys unique, and re-saving the same two entries leaves the rows
exactly as a single save would. -/
theorem save_daily_snapshot_unique_idempotent_witness :
    uniqueKeys (saveAll [(10, 0, [⟨1, "A", 10, 100, "Knight"⟩, ⟨2, "B", 9, 90, "Druid"⟩])] []) ∧
    (save_daily_snapshot 10 1 [⟨1, "A", 10, 100, "Knight"⟩, ⟨2, "B", 9, 90, "Druid"⟩]
        (save_daily_snapshot 10 0 [⟨1, "A", 10, 100, "Knight"⟩, ⟨2, "B", 9, 90, "Druid"⟩]
          []).table).table
      = (save_daily_snapshot 10 1 [⟨1, "A", 10, 100, "Knight"⟩, ⟨2, "B", 9, 90, "Druid"⟩]
          []).table :=
  save_daily_snapshot_unique_idempotent []
    [(10, 0, [⟨1, "A", 10, 100, "Knight"⟩, ⟨2, "B", 9, 90, "Druid"⟩])] 10 0 1
    [⟨1, "A", 10, 100, "Knight"⟩, ⟨2, "B", 9, 90, "Druid"⟩] (by decide)

/-- C5, counterexample: `save_daily_snapshot` and `calculate_daily_gains`
both compute their counts (here 1) but have no `return` statement, so the
value returned to the caller is `None`, not the count. -/
theorem save_and_compute_return_none_cex :
    (save_daily_snapshot 10 0 [⟨1, "A", 10, 100, "Knight"⟩] []).savedCount = 1 ∧
    (save_daily_snapshot 10 0 [⟨1, "A", 10, 100, "Knight"⟩] []).returned = none ∧
    (calculate_daily_gains 10 [⟨"A", 10, 100, "Knight", 1, 10, 0⟩] []).gainsCalculated = 1 ∧
    (calculate_daily_gains 10 [⟨"A", 10, 100, "Knight", 1, 10, 0⟩] []).returned = none ∧
    (none : Option Nat) ≠ some 1 := by
  decide

/-- C5 (amended): both persistence stages compute their counts — one per
entry written for `save_daily_snapshot`, one per driving row for
`calculate_daily_gains` — and log them, but each function returns `None`
rather than the count. -/
theorem save_and_compute_counts_logged (today now : Int) (players : List Player)
    (t snap : SnapshotTable) (g : GainsTable) :
    (save_daily_snapshot today now players t).returned = none ∧
    (save_daily_snapshot today now players t).savedCount = players.length ∧
    (calculate_daily_gains today snap g).returned = none ∧
    (calculate_daily_gains today snap g).gainsCalculated
      = (todaysRows snap today).length := by
  refine ⟨?_, ?_, rfl, calculate_daily_gains_count today snap g⟩
  · unfold save_daily_snapshot
    split
    · rfl
    · rfl
  · unfold save_daily_snapshot
    by_cases h : players.isEmpty
    · rw [if_pos h]
      simp [List.isEmpty_iff.mp h]
    · rw [if_neg h]
      have h2 := foldl_pair_snd (fun tbl p => upsertSnapshot (snapRowOf today now p) tbl)
        players t 0
      simpa using h2

/-- C6, counterexample: a six-column row with non-empty name "A", rank 1
and level 10 — satisfying the claim's acceptance condition (also its
stricter variant) — is nevertheless rejected, because its experience text
"abc" is non-empty but contains no digit: stripping non-digits leaves an
empty string, `int('')` raises ValueError, and the row is skipped. -/
theorem parseRow_no_digit_experience_cex :
    (6 ≤ rowNoDigitExpEx.length ∧ rowName rowNoDigitExpEx = "A" ∧
      rowRank rowNoDigitExpEx = 1 ∧ rowLevel rowNoDigitExpEx = 10) ∧
    parseRow rowNoDigitExpEx = none := by
  decide

/-- C6 (amended): a row is accepted exactly when it has at least six
columns, its experience text parses (it is empty or contains a digit),
its name is non-empty, its rank is positive and its level is positive
(the code always applies the stricter level > 0 variant); a rejected row
is skipped and the remaining rows of the table are still parsed; and the
experience text "1.234.567" parses to experience 1234567. -/
theorem parseRow_acceptance (cells bad : Row) (rows : List Row)
    (hbad : parseRow bad = none) :
    ((parseRow cells).isSome ↔
      (6 ≤ cells.length ∧ (rowExp cells).isSome ∧ rowName cells ≠ "" ∧
        rowRank cells > 0 ∧ rowLevel cells > 0)) ∧
    parseRows (bad :: rows) = parseRows rows ∧
    parseRow rowMillionEx = some ⟨1, "A", 10, 1234567, "Knight"⟩ := by
  refine ⟨?_, ?_, by decide⟩
  · unfold parseRow
    by_cases h6 : 6 ≤ cells.length
    · rw [if_pos h6]
      rcases hexp : rowExp cells with _ | e
      · simp [hexp, h6]
      · by_cases hval : rowName cells ≠ "" ∧ rowRank cells > 0 ∧ rowLevel cells > 0
        · simp [hexp, h6, hval]
        · simp [hexp, h6, hval]
    · rw [if_neg h6]
      simp [h6]
  · simp [parseRows, List.filterMap_cons, hbad]

/-- C6 witness: the short row is skipped while the row after it is still
parsed, and the "1.234.567" row yields experience 1234567. -/
theorem parseRow_acceptance_witness :
    (((parseRow rowGoodEx).isSome ↔
      (6 ≤ rowGoodEx.length ∧ (rowExp rowGoodEx).isSome ∧ rowName rowGoodEx ≠ "" ∧
        rowRank rowGoodEx > 0 ∧ rowLevel rowGoodEx > 0)) ∧
      parseRows (rowShortEx :: [rowMillionEx]) = parseRows [rowMillionEx] ∧
      parseRow rowMillionEx = some ⟨1, "A", 10, 1234567, "Knight"⟩) ∧
    parseRows [rowShortEx, rowMillionEx] = [⟨1, "A", 10, 1234567, "Knight"⟩] :=
  ⟨parseRow_acceptance rowGoodEx rowShortEx [rowMillionEx] (by decide), by decide⟩

/-- C7: `scrape_all_pages_async` concatenates the per-page entry lists in
page order (each page's entries in source order); a page whose fetch
fails contributes zero entries; and when page 3 of 5 fails, the result is
exactly the concatenation of the entries of pages 1, 2, 4 and 5. -/
theorem scrape_all_pages_partial_resilience (w : FetchWorld) (total page : Nat)
    (hfail : w page = Except.error ()) :
    scrape_page w page = [] ∧
    scrape_all_pages_async w total
      = ((List.range' 1 total).map (scrape_page w)).flatten ∧
    (page = 3 → scrape_all_pages_async w 5
      = scrape_page w 1 ++ scrape_page w 2 ++ scrape_page w 4 ++ scrape_page w 5) := by
  have hp : scrape_page w page = [] := by
    unfold scrape_page
    rw [hfail]
  refine ⟨hp, ?_, ?_⟩
  · unfold scrape_all_pages_async
    rw [foldl_append_eq_join]
    rfl
  · intro h3
    subst h3
    unfold scrape_all_pages_async
    rw [foldl_append_eq_join]
    show ([1, 2, 3, 4, 5].map (scrape_page w)).flatten = _
    simp [hp, List.append_assoc]

/-- C7 witness: in a world where page 3 of 5 fails and every other page
yields one entry, the full scrape returns the four entries of pages
1, 2, 4 and 5. -/
theorem scrape_all_pages_partial_resilience_witness :
    (scrape_page worldPage3FailsEx 3 = [] ∧
      scrape_all_pages_async worldPage3FailsEx 5
        = ((List.range' 1 5).map (scrape_page worldPage3FailsEx)).flatten ∧
      (3 = 3 → scrape_all_pages_async worldPage3FailsEx 5
        = scrape_page worldPage3FailsEx 1 ++ scrape_page worldPage3FailsEx 2
          ++ scrape_page worldPage3FailsEx 4 ++ scrape_page worldPage3FailsEx 5)) ∧
    scrape_all_pages_async worldPage3FailsEx 5
      = [⟨1, "A", 10, 2000, "Knight"⟩, ⟨1, "A", 10, 2000, "Knight"⟩,
         ⟨1, "A", 10, 2000, "Knight"⟩, ⟨1, "A", 10, 2000, "Knight"⟩] :=
  ⟨scrape_all_pages_partial_resilience worldPage3FailsEx 5 3 rfl, by decide⟩

/-- C8, counterexample: `get_top_gainers(7)` filters on
`date >= today - 7`, so a gains row dated `today - 7` — outside the
trailing window of 7 days inclusive of today, which is
`today - 6 .. today` — is counted: the code reports a total of 100 where
the claimed window sums to 0. And with two players tied at 50 the output
totals are [50, 50], which is not strictly descending. -/
theorem get_top_gainers_window_cex :
    get_top_gainers [⟨"A", 93, 100, 1, 10, 11, 0, 100⟩] 100 7 = [⟨"A", 100, 1, 1⟩] ∧
    specWindowSum [⟨"A", 93, 100, 1, 10, 11, 0, 100⟩] 100 7 "A" = 0 ∧
    (100 : Int) ≠ 0 ∧
    (get_top_gainers [⟨"A", 95, 50, 0, 1, 1, 0, 50⟩, ⟨"B", 95, 50, 0, 1, 1, 0, 50⟩]
        100 7).map GainerStats.total_exp_gained = [50, 50] ∧
    ¬ (50 : Int) > 50 := by
  decide

/-- C8 (amended): every row returned by `get_top_gainers` carries that
player's sum of exp_gained over the rows dated `today - days` or later —
a window of days + 1 calendar days inclusive of today, with no upper date
bound; the rows are ordered by total exp_gained descending but not
strictly (ties yield adjacent equal totals); and at most 50 rows are
returned. -/
theorem get_top_gainers_window_order_cap (g : GainsTable) (today days : Int) :
    (∀ s ∈ get_top_gainers g today days,
      s.total_exp_gained
        = ((g.filter (fun r => r.name == s.name && today - days ≤ r.date)).map
            GainsRow.exp_gained).sum) ∧
    (get_top_gainers g today days).Pairwise
      (fun a b => b.total_exp_gained ≤ a.total_exp_gained) ∧
    (get_top_gainers g today days).length ≤ 50 := by
  refine ⟨?_, ?_, List.length_take_le _ _⟩
  · intro s hs
    have hs2 := List.take_subset 50 _ hs
    rw [mem_sortDesc] at hs2
    rcases List.mem_map.mp hs2 with ⟨n, _, rfl⟩
    simp only [statsFor, List.filter_filter]
  · exact (pairwise_sortDesc _).sublist (List.take_sublist _ _)

/-- C8 witness: a single in-window record is summed and returned. -/
theorem get_top_gainers_window_order_cap_witness :
    (∀ s ∈ get_top_gainers [⟨"A", 100, 7, 1, 10, 11, 0, 7⟩] 100 7,
      s.total_exp_gained
        = (([⟨"A", 100, 7, 1, 10, 11, 0, 7⟩].filter
            (fun r => r.name == s.name && (100 : Int) - 7 ≤ r.date)).map
            GainsRow.exp_gained).sum) ∧
    (get_top_gainers [⟨"A", 100, 7, 1, 10, 11, 0, 7⟩] 100 7).Pairwise
      (fun a b => b.total_exp_gained ≤ a.total_exp_gained) ∧
    (get_top_gainers [⟨"A", 100, 7, 1, 10, 11, 0, 7⟩] 100 7).length ≤ 50 :=
  get_top_gainers_window_order_cap [⟨"A", 100, 7, 1, 10, 11, 0, 7⟩] 100 7

/-- C9: the claimed mutual exclusion is required by the spec but absent
from the code: `manual_scrape` consults no run state and no lock exists
anywhere in the module — `BackgroundTasks.add_task` unconditionally
enqueues another `daily_scraping_job` run and the handler reports
"started", so a second trigger arriving while one run is active yields
two queued/active runs instead of being rejected. -/
theorem manual_scrape_never_rejects :
    (manual_scrape (manual_scrape 0).1).1 = 2 ∧
    (manual_scrape (manual_scrape 0).1).2 = "Manual scraping started in background" ∧
    ∀ q : Nat, (manual_scrape q).1 = q + 1 :=
  ⟨rfl, rfl, fun _ => rfl⟩

/-- C10: with no collected entries the persistence stages are no-ops:
`save_daily_snapshot` on an empty entry list returns immediately leaving
the table untouched (and returns `None`), and a pipeline run whose
scrape fails completely (every page errors) leaves both the snapshots
and the gains tables exactly as they were — no zero-gain records are
written for that date. -/
theorem empty_scrape_leaves_state_unchanged (w : FetchWorld) (total : Nat)
    (today now : Int) (st : AppState) (t : SnapshotTable)
    (hw : ∀ p, w p = Except.error ()) :
    (save_daily_snapshot today now [] t).table = t ∧
    (save_daily_snapshot today now [] t).returned = none ∧
    daily_scraping_job w total today now st = st := by
  refine ⟨rfl, rfl, ?_⟩
  unfold daily_scraping_job
  rw [scrape_all_pages_error w total hw]
  rfl

/-- C10 witness: a dead world (every page errors) leaves a state with an
existing snapshot row and an existing gains row unchanged. -/
theorem empty_scrape_leaves_state_unchanged_witness :
    (save_daily_snapshot 10 0 [] [⟨"A", 10, 100, "Knight", 1, 9, 0⟩]).table
      = [⟨"A", 10, 100, "Knight", 1, 9, 0⟩] ∧
    (save_daily_snapshot 10 0 [] [⟨"A", 10, 100, "Knight", 1, 9, 0⟩]).returned = none ∧
    daily_scraping_job deadWorldEx 5 10 0
        ⟨[⟨"A", 10, 100, "Knight", 1, 9, 0⟩], [⟨"A", 9, 5, 1, 9, 10, 95, 100⟩]⟩
      = ⟨[⟨"A", 10, 100, "Knight", 1, 9, 0⟩], [⟨"A", 9, 5, 1, 9, 10, 95, 100⟩]⟩ :=
  empty_scrape_leaves_state_unchanged deadWorldEx 5 10 0
    ⟨[⟨"A", 10, 100, "Knight", 1, 9, 0⟩], [⟨"A", 9, 5, 1, 9, 10, 95, 100⟩]⟩
    [⟨"A", 10, 100, "Knight", 1, 9, 0⟩] (fun _ => rfl)

end TibiaTracker
